import Mathlib

/-!
Verification of the FLI (Food Loss Index) tracker pipeline, a shallow
embedding of `src/FLI.py` in Lean 4.  The embedding covers:

* the area-name resolver `get_iso_code` (override dictionary, then
  registry lookup, then approximate string matching, then fallback);
* the inline dataset `load_data` and the dropna merge step;
* the dashboard summary metric `fli_value`;
* the linear-regression forecast block (ordinary least squares over the
  filtered series, extrapolated over the dataset-wide year range).

External libraries (pycountry, difflib, sklearn) are not part of the
repository; they are modelled abstractly: the country registry is a
`Registry` record (canonical names, a lookup that may fail, a similarity
measure on a 0..1 rational scale), and sklearn's LinearRegression on one
feature is the closed-form OLS slope/intercept over exact rationals.
Python exceptions that the source code does not catch are modelled with
`Except`; values the source computes are modelled over `ℚ` and `Int`.
-/

/-- Resolution method of the spec's AreaCode data model.  The source code
returns only the optional code; the method annotation records which arm of
the control flow produced it.  Following the spec's data model, an
override-table entry that maps a name to "no mappable code" (e.g. "World")
is the designed `unresolved` outcome. -/
inductive Method where
  | override
  | registry
  | fuzzy
  | unresolved
deriving DecidableEq, Repr

/-- AreaCode record of the spec: the optional standardized code together
with the resolution method that produced it. -/
structure AreaCode where
  code : Option String
  method : Method
deriving DecidableEq, Repr

/-- Abstract model of the external pycountry registry and the difflib
similarity measure: `countries` is the list of canonical country names
(the candidate pool of `get_close_matches`), `alpha3 n` is
`pycountry.countries.lookup(n).alpha_3` when the lookup succeeds and
`none` when it raises `LookupError`/`AttributeError`, and `sim a b` is the
difflib similarity of the two strings on the 0..1 scale. -/
structure Registry where
  countries : List String
  alpha3 : String → Option String
  sim : String → String → ℚ

/-- The `region_mapping` dictionary of `get_iso_code`, verbatim from the
source: manual mapping for regions not in pycountry, with `none` for the
names that have no mappable code. -/
def region_mapping : List (String × Option String) :=
  [ ("World", none),
    ("Africa", none),
    ("South America", some "SA"),
    ("Western Africa", some "011"),
    ("Central America", some "013"),
    ("Northern Africa", some "015"),
    ("Eastern Africa", some "014"),
    ("Middle Africa", some "017"),
    ("Southern Africa", some "018"),
    ("Americas", some "019"),
    ("Northern America", some "021"),
    ("Caribbean", some "029"),
    ("Eastern Asia", some "030"),
    ("Southern Asia", some "034"),
    ("South-eastern Asia", some "035"),
    ("Southern Europe", some "039"),
    ("Australia and New Zealand", some "053"),
    ("Melanesia", some "054"),
    ("Micronesia", some "057"),
    ("Polynesia", some "061"),
    ("Central Asia and Southern Asia", some "062"),
    ("Asia", some "142"),
    ("Central Asia", some "143"),
    ("Western Asia", some "145"),
    ("Europe", some "150"),
    ("Eastern Europe", some "151"),
    ("Northern Europe", some "154"),
    ("Western Europe", some "155"),
    ("Least Developed Countries (LDCs)", some "199"),
    ("Sub-Saharan Africa", some "202"),
    ("Latin America and the Caribbean", some "419"),
    ("Land Locked Developing Countries (LLDCs)", some "432"),
    ("Northern America and Europe", some "513"),
    ("Oceania (excluding Australia and New Zealand)", some "543"),
    ("Small Island Developing States (SIDS)", some "722"),
    ("Western Asia and Northern Africa", some "747"),
    ("Eastern Asia and South-eastern Asia", some "753"),
    ("Europe, Northern America, Australia and New Zealand", some "777") ]

/-- Python's `name in region_mapping` / `region_mapping[name]` pair:
`some v` when the name is a key of the dictionary (where `v` is the stored
optional code), `none` when it is not a key. -/
def lookupOverride (name : String) : Option (Option String) :=
  (region_mapping.find? (fun p => p.1 = name)).map (·.2)

/-- One step of the model of `difflib.get_close_matches(name, cs, n=1,
cutoff)`: the accumulator holds the best candidate seen so far together
with its similarity, and is replaced only when a new candidate reaches the
cutoff with a strictly greater similarity, matching the stable
tie-breaking of `heapq.nlargest` (the first candidate attaining the
maximal similarity wins). -/
def bmStep (s : String → ℚ) (cutoff : ℚ) (acc : Option (String × ℚ))
    (c : String) : Option (String × ℚ) :=
  match acc with
  | none => if cutoff ≤ s c then some (c, s c) else none
  | some (b, r) => if cutoff ≤ s c ∧ r < s c then some (c, s c) else some (b, r)

/-- The best close match: run `bmStep` over the candidate pool and keep
only the winning name. -/
def bestMatch (s : String → ℚ) (cutoff : ℚ) (cs : List String) : Option String :=
  (cs.foldl (bmStep s cutoff) none).map (·.1)

/-- Shallow embedding of `get_iso_code` (src/FLI.py lines 22-74), with the
spec's method annotation attached to the result.  The override dictionary
is consulted first and returns whatever it stores (possibly no code); on a
miss, the registry lookup is attempted; on `LookupError`/`AttributeError`
(modelled by `alpha3 name = none`) the approximate match with cutoff 4/5
runs, and its re-lookup `pycountry.countries.lookup(match[0]).alpha_3`
sits outside any handler, so a failure there is an uncaught exception,
modelled by `Except.error`.  With no close match the function returns no
code. -/
def resolveE (R : Registry) (name : String) : Except Unit AreaCode :=
  match lookupOverride name with
  | some (some c) => .ok ⟨some c, .override⟩
  | some none => .ok ⟨none, .unresolved⟩
  | none =>
    match R.alpha3 name with
    | some c => .ok ⟨some c, .registry⟩
    | none =>
      match bestMatch (R.sim name) (4/5) R.countries with
      | some m =>
        match R.alpha3 m with
        | some c => .ok ⟨some c, .fuzzy⟩
        | none => .error ()
      | none => .ok ⟨none, .unresolved⟩

/-- The observable value of `get_iso_code`: the optional code, or an
uncaught exception. -/
def get_iso_code (R : Registry) (name : String) : Except Unit (Option String) :=
  (resolveE R name).map (·.code)

instance {e a : Type} [DecidableEq e] [DecidableEq a] :
    DecidableEq (Except e a) := fun x y =>
  match x, y with
  | .ok u, .ok v =>
    if h : u = v then .isTrue (congrArg Except.ok h)
    else .isFalse (fun hc => h (Except.ok.inj hc))
  | .error u, .error v =>
    if h : u = v then .isTrue (congrArg Except.error h)
    else .isFalse (fun hc => h (Except.error.inj hc))
  | .ok _, .error _ => .isFalse (fun hc => Except.noConfusion hc)
  | .error _, .ok _ => .isFalse (fun hc => Except.noConfusion hc)

/-- One row of the dashboard's DataFrame after `load_data`: AREA,
TIME_PERIOD, FLI, LossPercent.  Indicator values are modelled over exact
rationals. -/
structure Row where
  area : String
  period : Int
  fli : ℚ
  lossPercent : ℚ
deriving DecidableEq, Repr

/-- The inline raw DataFrame of `load_data` before `dropna()`: missing
values (`None` in the source) are `none`. -/
def raw_data : List (String × Int × Option ℚ × Option ℚ) :=
  [ ("World", 2021, some (9827/100), some (1323/100)),
    ("Africa", 2021, none, none),
    ("South America", 2021, some (10429/100), some (141/10)),
    ("Western Africa", 2021, some (9969/100), some (2356/100)),
    ("Central America", 2021, some (857/10), some (1591/100)) ]

/-- The `dropna()` step applied to an arbitrary raw table: a row survives
exactly when none of its values is missing. -/
def dropna (t : List (String × Int × Option ℚ × Option ℚ)) : List Row :=
  t.filterMap (fun r =>
    match r with
    | (a, p, some f, some l) => some ⟨a, p, f, l⟩
    | _ => none)

/-- The dashboard's `load_data()`: the inline table with rows holding a
missing value dropped. -/
def load_data : List Row := dropna raw_data

/-- `data[data['AREA'] == selected_region]` (src/FLI.py line 87). -/
def filtered_data (data : List Row) (region : String) : List Row :=
  data.filter (fun r => r.area = region)

/-- The summary metric of src/FLI.py line 103:
`filtered_data[filtered_data['TIME_PERIOD'] == selected_year]['FLI'].values[0]
if not filtered_data.empty else "N/A"`.  The string "N/A" is modelled by
`.ok none`; indexing `.values[0]` on an empty selection raises an
`IndexError`, modelled by `.error`. -/
def fli_value (data : List Row) (region : String) (year : Int) :
    Except Unit (Option ℚ) :=
  if (filtered_data data region).isEmpty then .ok none
  else
    match ((filtered_data data region).filter (fun r => r.period = year)).head? with
    | some r => .ok (some r.fli)
    | none => .error ()

/-- The (period, FLI) points a forecast is fitted on: `X =
filtered_data[['TIME_PERIOD']]`, `y = filtered_data['FLI']`. -/
def pointsOf (rows : List Row) : List (Int × ℚ) :=
  rows.map (fun r => (r.period, r.fli))

/-- Closed-form ordinary-least-squares slope of sklearn's
`LinearRegression().fit(X, y)` with the single feature TIME_PERIOD:
`(n·Σxy − Σx·Σy) / (n·Σx² − (Σx)²)` over exact rationals. -/
def olsSlope (pts : List (Int × ℚ)) : ℚ :=
  let n : ℚ := pts.length
  let sx : ℚ := (pts.map (fun p => (p.1 : ℚ))).sum
  let sy : ℚ := (pts.map (·.2)).sum
  let sxy : ℚ := (pts.map (fun p => (p.1 : ℚ) * p.2)).sum
  let sxx : ℚ := (pts.map (fun p => (p.1 : ℚ) * (p.1 : ℚ))).sum
  (n * sxy - sx * sy) / (n * sxx - sx * sx)

/-- Closed-form ordinary-least-squares intercept:
`(Σy − slope·Σx) / n`. -/
def olsIntercept (pts : List (Int × ℚ)) : ℚ :=
  ((pts.map (·.2)).sum - olsSlope pts * (pts.map (fun p => (p.1 : ℚ))).sum)
    / (pts.length : ℚ)

/-- `model.predict` at one period: the fitted line evaluated at `t`. -/
def predict (pts : List (Int × ℚ)) (t : Int) : ℚ :=
  olsSlope pts * (t : ℚ) + olsIntercept pts

/-- `years = sorted(data['TIME_PERIOD'].unique())` (src/FLI.py line 82):
the distinct periods of the whole dataset.  Sorting is omitted because the
forecast block consumes this list only through `min` and `max`, which are
order-independent. -/
def yearsOf (data : List Row) : List Int := (data.map (·.period)).dedup

/-- The forecast block of src/FLI.py lines 132-142: when the selected
region's filtered series has more than one row, fit the OLS line on it and
predict over `np.arange(min(years), max(years)+6)`, i.e. the periods from
the dataset-wide minimum year through the dataset-wide maximum year plus 5
inclusive; otherwise (`len(filtered_data) <= 1`) no forecast is produced
and the dashboard reports that there is not enough data. -/
def forecastBlock (data : List Row) (region : String) :
    Option (List (Int × ℚ)) :=
  let fd := filtered_data data region
  if 1 < fd.length then
    match (yearsOf data).min?, (yearsOf data).max? with
    | some lo, some hi =>
      some (((List.range (hi + 6 - lo).toNat).map (fun (i : Nat) => lo + (i : Int))).map
        (fun t => (t, predict (pointsOf fd) t)))
    | _, _ => none
  else none

/-- Concrete stand-in for the external difflib similarity measure, used by
the scenario theorems: the misspelling "Boliva" is close to "Bolivia"
(similarity 12/13, its difflib ratio), farther from the other candidates,
and the nonsense name "Xyzzyplatz" is far from everything (the default
similarity 1/5 is well below the 0.8 cutoff). -/
def demoSim (a b : String) : ℚ :=
  if a = "Boliva" ∧ b = "Bolivia" then 12/13
  else if a = "Boliva" ∧ b = "Argentina" then 4/15
  else if a = "Boliva" ∧ b = "Brazil" then 1/3
  else if a = b then 1
  else 1/5

/-- Concrete stand-in for `pycountry.countries.lookup(·).alpha_3`: the
three demo countries resolve to their alpha-3 codes; "Western Africa" is
given a registry entry on purpose, to exercise the rule that the override
table preempts the registry. -/
def demoAlpha3 (n : String) : Option String :=
  if n = "Argentina" then some "ARG"
  else if n = "Bolivia" then some "BOL"
  else if n = "Brazil" then some "BRA"
  else if n = "Western Africa" then some "XWA"
  else none

/-- A small concrete registry configuration for the scenario theorems. -/
def demoRegistry : Registry :=
  ⟨["Argentina", "Bolivia", "Brazil"], demoAlpha3, demoSim⟩

/-- The demo registry with a degenerate similarity measure (everything is
maximally dissimilar); it differs from `demoRegistry` only in the
similarity component. -/
def demoRegistryZero : Registry :=
  ⟨["Argentina", "Bolivia", "Brazil"], demoAlpha3, fun _ _ => 0⟩

/-- A perfectly linear three-point series for one area, for the forecaster
round-trip: FLI 100, 102, 104 in 2016, 2017, 2018. -/
def linSeries : List Row :=
  [ ⟨"X", 2016, 100, 0⟩, ⟨"X", 2017, 102, 0⟩, ⟨"X", 2018, 104, 0⟩ ]

/-- A dataset with two areas over different year ranges: area "A" is
observed in 2016-2017 and area "B" in 2018-2019, so the dataset-wide year
range differs from each area's own range. -/
def dataB : List Row :=
  [ ⟨"A", 2016, 1, 0⟩, ⟨"A", 2017, 2, 0⟩,
    ⟨"B", 2018, 5, 0⟩, ⟨"B", 2019, 6, 0⟩ ]

/-- A dataset whose only area has a single observation. -/
def dataC : List Row := [ ⟨"Solo", 2021, 3, 1⟩ ]

instance : Std.Antisymm (fun a b : Int => a ≤ b) :=
  ⟨fun h1 h2 => Int.le_antisymm h1 h2⟩

theorem int_min?_eq_some_iff {l : List Int} {a : Int} :
    l.min? = some a ↔ a ∈ l ∧ ∀ b ∈ l, a ≤ b :=
  List.min?_eq_some_iff (fun _ => le_refl _) (fun _ _ => min_choice _ _)
    (fun _ _ _ => le_min_iff)

theorem int_max?_eq_some_iff {l : List Int} {a : Int} :
    l.max? = some a ↔ a ∈ l ∧ ∀ b ∈ l, b ≤ a :=
  List.max?_eq_some_iff (fun _ => le_refl _) (fun _ _ => max_choice _ _)
    (fun _ _ _ => max_le_iff)

/-- Removing duplicates does not change the minimum of a list of years. -/
theorem min?_dedup (l : List Int) : l.dedup.min? = l.min? := by
  cases h : l.min? with
  | none =>
    rw [List.min?_eq_none_iff] at h
    simp [h]
  | some a =>
    rw [int_min?_eq_some_iff] at h ⊢
    simpa [List.mem_dedup] using h

/-- Removing duplicates does not change the maximum of a list of years. -/
theorem max?_dedup (l : List Int) : l.dedup.max? = l.max? := by
  cases h : l.max? with
  | none =>
    rw [List.max?_eq_none_iff] at h
    simp [h]
  | some a =>
    rw [int_max?_eq_some_iff] at h ⊢
    simpa [List.mem_dedup] using h

/-- Invariant of the close-match fold: a winning candidate either was the
initial accumulator or is a member of the candidate pool whose recorded
similarity is its own and reaches the cutoff. -/
theorem bmFold_spec (s : String → ℚ) (cutoff : ℚ) (cs : List String) :
    ∀ (acc : Option (String × ℚ)) (b : String) (r : ℚ),
      cs.foldl (bmStep s cutoff) acc = some (b, r) →
      some (b, r) = acc ∨ (b ∈ cs ∧ cutoff ≤ r ∧ r = s b) := by
  induction cs with
  | nil => exact fun acc b r h => Or.inl h.symm
  | cons c cs ih =>
    intro acc b r h
    rw [List.foldl_cons] at h
    rcases ih (bmStep s cutoff acc c) b r h with h' | h'
    · cases acc with
      | none =>
        rw [bmStep] at h'
        split at h'
        next hle =>
          cases h'
          exact Or.inr ⟨List.mem_cons_self _ _, hle, rfl⟩
        next => cases h'
      | some p =>
        obtain ⟨b0, r0⟩ := p
        rw [bmStep] at h'
        split at h'
        next hc =>
          cases h'
          exact Or.inr ⟨List.mem_cons_self _ _, hc.1, rfl⟩
        next => exact Or.inl h'
    · exact Or.inr ⟨List.mem_cons_of_mem _ h'.1, h'.2⟩

/-- A close match accepted by `bestMatch` is a member of the candidate
pool and its similarity reaches the cutoff. -/
theorem bestMatch_mem_le {s : String → ℚ} {cutoff : ℚ} {cs : List String}
    {m : String} (h : bestMatch s cutoff cs = some m) :
    m ∈ cs ∧ cutoff ≤ s m := by
  unfold bestMatch at h
  cases hf : cs.foldl (bmStep s cutoff) none with
  | none => rw [hf] at h; cases h
  | some p =>
    obtain ⟨b, r⟩ := p
    rw [hf] at h
    simp only [Option.map_some'] at h
    rcases bmFold_spec s cutoff cs none b r hf with h' | h'
    · cases h'
    · obtain ⟨hmem, hcut, hr⟩ := h'
      cases Option.some.inj h
      exact ⟨hmem, hr ▸ hcut⟩

/-- When every candidate falls below the cutoff there is no close match. -/
theorem bestMatch_eq_none {s : String → ℚ} {cutoff : ℚ} {cs : List String}
    (h : ∀ c ∈ cs, s c < cutoff) : bestMatch s cutoff cs = none := by
  cases hb : bestMatch s cutoff cs with
  | none => rfl
  | some m =>
    obtain ⟨hm, hle⟩ := bestMatch_mem_le hb
    exact absurd hle (not_le.mpr (h m hm))

/-- No key of the override dictionary is blank (empty or whitespace). -/
theorem override_keys_not_blank :
    ∀ p ∈ region_mapping, ¬(p.1.data.all (fun c => c.isWhitespace) = true) := by
  decide

/-- A blank name is not a key of the override dictionary. -/
theorem lookupOverride_blank {name : String}
    (h : name.data.all (fun c => c.isWhitespace) = true) :
    lookupOverride name = none := by
  unfold lookupOverride
  rw [List.find?_eq_none.mpr]
  · rfl
  · intro p hp
    simp only [decide_eq_true_eq]
    intro hq
    exact override_keys_not_blank p hp (hq ▸ h)

/-- Membership in the integer range `[lo, lo+n)` produced by mapping an
offset over `List.range`. -/
theorem mem_range_map {lo : Int} {n : Nat} {p : Int} :
    p ∈ (List.range n).map (fun (i : Nat) => lo + (i : Int)) ↔ lo ≤ p ∧ p < lo + (n : Int) := by
  rw [List.mem_map]
  constructor
  · rintro ⟨i, hi, rfl⟩
    rw [List.mem_range] at hi
    omega
  · rintro ⟨h1, h2⟩
    exact ⟨(p - lo).toNat, List.mem_range.mpr (by omega), by omega⟩

/-- C1: for every input area name, resolution proceeds in a fixed order
with first success winning — override table, then exact registry lookup,
then approximate matching, with unresolved as the deterministic fallback;
for a name the override table knows, or one the registry resolves exactly,
approximate matching is never attempted: the outcome is then independent
of the similarity component of the configuration (the fourth conjunct,
over two registries that differ only in their similarity measure). -/
theorem resolution_chain_order (R R' : Registry) (name : String)
    (_hcs : R.countries = R'.countries) (ha : R.alpha3 = R'.alpha3) :
    (∀ c, lookupOverride name = some (some c) →
      resolveE R name = .ok ⟨some c, .override⟩) ∧
    (lookupOverride name = some none →
      resolveE R name = .ok ⟨none, .unresolved⟩) ∧
    (∀ c, lookupOverride name = none → R.alpha3 name = some c →
      resolveE R name = .ok ⟨some c, .registry⟩) ∧
    (((lookupOverride name).isSome ∨ (R.alpha3 name).isSome) →
      resolveE R name = resolveE R' name) ∧
    (lookupOverride name = none → R.alpha3 name = none →
      bestMatch (R.sim name) (4/5) R.countries = none →
      resolveE R name = .ok ⟨none, .unresolved⟩) := by
  refine ⟨?_, ?_, ?_, ?_, ?_⟩
  · intro c h
    simp [resolveE, h]
  · intro h
    simp [resolveE, h]
  · intro c h1 h2
    simp [resolveE, h1, h2]
  · intro h
    cases hl : lookupOverride name with
    | some v => cases v <;> simp [resolveE, hl]
    | none =>
      rcases h with h | h
      · rw [hl] at h
        simp at h
      · obtain ⟨c, hc2⟩ := Option.isSome_iff_exists.mp h
        have hc3 : R'.alpha3 name = some c := ha ▸ hc2
        simp [resolveE, hl, hc2, hc3]
  · intro h1 h2 h3
    simp [resolveE, h1, h2, h3]

/-- C1 witness: on the concrete registries (identical except for their
similarity measure) the override-mapped name "Western Africa" resolves via
the override table, independently of similarity. -/
theorem resolution_chain_order_witness :
    resolveE demoRegistry "Western Africa"
      = resolveE demoRegistryZero "Western Africa" ∧
    resolveE demoRegistry "Western Africa" = .ok ⟨some "011", .override⟩ :=
  ⟨(resolution_chain_order demoRegistry demoRegistryZero "Western Africa"
      rfl rfl).2.2.2.1 (Or.inl (by decide)),
   (resolution_chain_order demoRegistry demoRegistryZero "Western Africa"
      rfl rfl).1 "011" (by decide)⟩

/-- C5: an AreaCode produced by resolution has no code exactly when its
resolution method is unresolved.  Per the spec's data model, an
override-table entry mapping a name to "no mappable code" is the designed
unresolved outcome. -/
theorem code_none_iff_unresolved (R : Registry) (name : String)
    (ac : AreaCode) (h : resolveE R name = .ok ac) :
    ac.code = none ↔ ac.method = .unresolved := by
  unfold resolveE at h
  split at h
  · cases Except.ok.inj h
    simp
  · cases Except.ok.inj h
    simp
  · split at h
    · cases Except.ok.inj h
      simp
    · split at h
      · split at h
        · cases Except.ok.inj h
          simp
        · exact Except.noConfusion h
      · cases Except.ok.inj h
        simp

/-- C5 witness: the invariant instantiated at a registry-resolved name. -/
theorem code_none_iff_unresolved_witness :
    ((some "BOL" : Option String) = none ↔ Method.registry = .unresolved) :=
  code_none_iff_unresolved demoRegistry "Bolivia" ⟨some "BOL", .registry⟩
    rfl

/-- C9: resolution is total — whenever the registry lookup succeeds on
every canonical registry name (the pool approximate matching draws from),
`get_iso_code` returns a value for every input string and never raises:
the re-lookup in the approximate-match branch is applied to an exact
canonical registry name, so it cannot fail. -/
theorem resolver_no_uncaught (R : Registry) (name : String)
    (hreg : ∀ c ∈ R.countries, (R.alpha3 c).isSome = true) :
    ∃ v, get_iso_code R name = .ok v := by
  cases h1 : lookupOverride name with
  | some v => cases v <;> simp [get_iso_code, resolveE, h1, Except.map]
  | none =>
    cases h2 : R.alpha3 name with
    | some c => simp [get_iso_code, resolveE, h1, h2, Except.map]
    | none =>
      cases h3 : bestMatch (R.sim name) (4/5) R.countries with
      | none => simp [get_iso_code, resolveE, h1, h2, h3, Except.map]
      | some m =>
        obtain ⟨c, hc2⟩ :=
          Option.isSome_iff_exists.mp (hreg m (bestMatch_mem_le h3).1)
        simp [get_iso_code, resolveE, h1, h2, h3, hc2, Except.map]

/-- C9 witness: totality instantiated at the concrete registry (whose
lookup succeeds on each of its canonical names) and an unknown name. -/
theorem resolver_no_uncaught_witness :
    ∃ v, get_iso_code demoRegistry "Atlantis" = .ok v :=
  resolver_no_uncaught demoRegistry "Atlantis" (by decide)

/-- C6: with the registry containing "Bolivia" and the similarity cutoff
fixed at 0.8, the misspelled "Boliva" resolves to Bolivia's code through
the approximate-match step, the nonsense name "Xyzzyplatz" stays
unresolved with no code, and in general a fuzzy match is accepted only
when similarity to a canonical registry name is at least 4/5 (last
conjunct, over every configuration). -/
theorem fuzzy_match_scenario :
    get_iso_code demoRegistry "Boliva" = .ok (some "BOL") ∧
    resolveE demoRegistry "Boliva" = .ok ⟨some "BOL", .fuzzy⟩ ∧
    get_iso_code demoRegistry "Xyzzyplatz" = .ok none ∧
    resolveE demoRegistry "Xyzzyplatz" = .ok ⟨none, .unresolved⟩ ∧
    (∀ (R : Registry) (name : String) (ac : AreaCode),
      resolveE R name = .ok ac → ac.method = .fuzzy →
      ∃ m ∈ R.countries, 4/5 ≤ R.sim name m ∧ R.alpha3 m = ac.code) := by
  refine ⟨by with_unfolding_all decide, by with_unfolding_all decide,
    by with_unfolding_all decide, by with_unfolding_all decide, ?_⟩
  intro R name ac h hm
  unfold resolveE at h
  split at h
  · cases Except.ok.inj h
    exact absurd hm (by simp)
  · cases Except.ok.inj h
    exact absurd hm (by simp)
  · split at h
    · cases Except.ok.inj h
      exact absurd hm (by simp)
    · split at h
      · split at h
        · rename_i m hbm x c hal
          cases Except.ok.inj h
          exact ⟨m, (bestMatch_mem_le hbm).1, (bestMatch_mem_le hbm).2, hal⟩
        · exact Except.noConfusion h
      · cases Except.ok.inj h
        exact absurd hm (by simp)

/-- C6 witness: the general acceptance condition of the last conjunct,
instantiated at the concrete fuzzy resolution of "Boliva". -/
theorem fuzzy_match_scenario_witness :
    ∃ m ∈ demoRegistry.countries,
      4/5 ≤ demoRegistry.sim "Boliva" m ∧
      demoRegistry.alpha3 m = some "BOL" :=
  fuzzy_match_scenario.2.2.2.2 demoRegistry "Boliva" ⟨some "BOL", .fuzzy⟩
    (by with_unfolding_all decide) rfl

/-- C7: a name in the override table's no-mappable-code set resolves with
no code, and never with a code from the registry or from approximate
matching (first conjunct, over every configuration); a name the override
table maps to a code resolves to that code via the override step, whatever
the registry would say (second conjunct); "World" and "Western Africa" are
such names. -/
theorem override_table_preempts (R : Registry) (name : String) :
    (lookupOverride name = some none → get_iso_code R name = .ok none) ∧
    (∀ c, lookupOverride name = some (some c) →
      get_iso_code R name = .ok (some c) ∧
      resolveE R name = .ok ⟨some c, .override⟩) ∧
    lookupOverride "World" = some none ∧
    lookupOverride "Western Africa" = some (some "011") := by
  refine ⟨?_, ?_, rfl, rfl⟩
  · intro h
    simp [get_iso_code, resolveE, h, Except.map]
  · intro c h
    constructor <;> simp [get_iso_code, resolveE, h, Except.map]

/-- C7 witness: on the concrete registry — which deliberately contains a
registry entry for "Western Africa" — the override still wins, and "World"
yields no code. -/
theorem override_table_preempts_witness :
    get_iso_code demoRegistry "World" = .ok none ∧
    get_iso_code demoRegistry "Western Africa" = .ok (some "011") ∧
    demoRegistry.alpha3 "Western Africa" = some "XWA" :=
  ⟨(override_table_preempts demoRegistry "World").1 rfl,
   ((override_table_preempts demoRegistry "Western Africa").2.1 "011" rfl).1,
   rfl⟩

/-- C8: an input that is empty or consists only of whitespace resolves to
unresolved with no code, provided such a blank string is not a canonical
registry name (its lookup fails) and is not similar to any canonical name
at the 0.8 cutoff. -/
theorem blank_name_unresolved (R : Registry) (name : String)
    (hws : name.data.all (fun c => c.isWhitespace) = true)
    (ha : R.alpha3 name = none)
    (hsim : ∀ c ∈ R.countries, R.sim name c < 4/5) :
    resolveE R name = .ok ⟨none, .unresolved⟩ ∧
    get_iso_code R name = .ok none := by
  have h1 := lookupOverride_blank hws
  have h3 := bestMatch_eq_none hsim
  constructor <;> simp [get_iso_code, resolveE, h1, ha, h3, Except.map]

/-- C8 witness: a single-space name on the concrete registry. -/
theorem blank_name_unresolved_witness :
    resolveE demoRegistry " " = .ok ⟨none, .unresolved⟩ ∧
    get_iso_code demoRegistry " " = .ok none :=
  blank_name_unresolved demoRegistry " " (by decide) rfl
    (by with_unfolding_all decide)

/-- C10: for a selectable (region, year) pair, under the completeness
condition that a region holding any record holds one for the selected
year, the summary metric computes without error: it is "N/A" (modelled by
`.ok none`) exactly when the region has no records, and otherwise the
first FLI value of the region's records filtered to the year. -/
theorem summary_metric_consistent (data : List Row) (region : String)
    (year : Int)
    (hr : region ∈ data.map (·.area))
    (_hy : year ∈ data.map (·.period))
    (hcomplete : filtered_data data region ≠ [] →
      ∃ r ∈ filtered_data data region, r.period = year) :
    fli_value data region year =
      .ok (((filtered_data data region).filter
        (fun r => r.period = year)).head?.map (·.fli)) ∧
    (fli_value data region year = .ok none ↔
      filtered_data data region = []) := by
  have hne : filtered_data data region ≠ [] := by
    rw [List.mem_map] at hr
    obtain ⟨r, hrm, hra⟩ := hr
    intro hempty
    have hmem : r ∈ filtered_data data region :=
      List.mem_filter.mpr ⟨hrm, by simp [hra]⟩
    rw [hempty] at hmem
    cases hmem
  obtain ⟨r0, hr0m, hr0y⟩ := hcomplete hne
  have hmem0 : r0 ∈ (filtered_data data region).filter
      (fun r => r.period = year) :=
    List.mem_filter.mpr ⟨hr0m, by simp [hr0y]⟩
  obtain ⟨r1, hr1⟩ : ∃ r1,
      ((filtered_data data region).filter
        (fun r => r.period = year)).head? = some r1 := by
    cases hfl : (filtered_data data region).filter
        (fun r => r.period = year) with
    | nil => rw [hfl] at hmem0; cases hmem0
    | cons a l => exact ⟨a, rfl⟩
  have hie : (filtered_data data region).isEmpty = false := by
    cases hfd : filtered_data data region with
    | nil => exact absurd hfd hne
    | cons a l => rfl
  have hfv : fli_value data region year = .ok (some r1.fli) := by
    unfold fli_value
    rw [hie, hr1]
    rfl
  refine ⟨?_, ?_⟩
  · rw [hfv, hr1]
    rfl
  · rw [hfv]
    constructor
    · intro hv
      simp at hv
    · intro hempty
      exact absurd hempty hne

/-- C10 witness: the shipped dataset at the default selection ("World",
2021). -/
theorem summary_metric_consistent_witness :
    fli_value load_data "World" 2021 =
      .ok (((filtered_data load_data "World").filter
        (fun r => r.period = 2021)).head?.map (·.fli)) ∧
    (fli_value load_data "World" 2021 = .ok none ↔
      filtered_data load_data "World" = []) :=
  summary_metric_consistent load_data "World" 2021
    (by with_unfolding_all decide) (by with_unfolding_all decide)
    (fun _ => by with_unfolding_all decide)

/-- C2 counterexample: the forecast period range is derived from the
dataset-wide year list, not from the selected area's own series — for the
concrete dataset, area "B" is observed only from 2018 on, yet the forecast
for "B" contains the period 2016, so the output does not cover the periods
from the minimum of B's series through its maximum plus a horizon,
whatever the horizon. -/
theorem forecast_uses_global_years :
    2016 ∈ ((forecastBlock dataB "B").getD []).map (·.1) ∧
    ∀ p ∈ (filtered_data dataB "B").map (·.period), 2018 ≤ p := by
  with_unfolding_all decide

/-- C2 (amended): for an area whose filtered series has more than one row,
the forecast output covers exactly the periods from the minimum observed
period of the whole dataset through the maximum observed period of the
whole dataset plus 5 (the hard-coded horizon), inclusive; the code emits
predicted values only, with no is_historical flag. -/
theorem forecast_period_range (data : List Row) (region : String)
    (lo hi : Int)
    (hlen : 1 < (filtered_data data region).length)
    (hlo : (data.map (·.period)).min? = some lo)
    (hhi : (data.map (·.period)).max? = some hi) :
    ∀ p : Int, p ∈ ((forecastBlock data region).getD []).map (·.1) ↔
      lo ≤ p ∧ p ≤ hi + 5 := by
  intro p
  have hlo' : (yearsOf data).min? = some lo := by
    rw [yearsOf, min?_dedup]
    exact hlo
  have hhi' : (yearsOf data).max? = some hi := by
    rw [yearsOf, max?_dedup]
    exact hhi
  have hlohi : lo ≤ hi := by
    obtain ⟨hm, -⟩ := int_min?_eq_some_iff.mp hlo
    obtain ⟨-, hall⟩ := int_max?_eq_some_iff.mp hhi
    exact hall lo hm
  rw [forecastBlock]
  simp only [hlen, if_true, hlo', hhi', Option.getD_some]
  rw [List.map_map]
  have hcomp : ((fun x : Int × ℚ => x.1) ∘
      (fun t => (t, predict (pointsOf (filtered_data data region)) t)))
      = fun t : Int => t := rfl
  rw [hcomp, List.map_id', mem_range_map]
  omega

/-- C2 witness: the amended range characterization instantiated on the
concrete dataset and the period 2016. -/
theorem forecast_period_range_witness :
    2016 ∈ ((forecastBlock dataB "B").getD []).map (·.1) ↔
      (2016 : Int) ≤ 2016 ∧ (2016 : Int) ≤ 2019 + 5 :=
  forecast_period_range dataB "B" 2016 2019 (by decide) (by decide)
    (by decide) 2016

/-- C3: an area series with fewer than 2 distinct (period, value) points —
under the record invariant that an area holds at most one record per
period — produces no forecast: the block reports not-enough-data instead
of computing one. -/
theorem insufficient_data_no_forecast (data : List Row) (region : String)
    (hnodup : ((filtered_data data region).map (·.period)).Nodup)
    (hfew : ((pointsOf (filtered_data data region)).dedup).length < 2) :
    forecastBlock data region = none := by
  have hmapeq : (pointsOf (filtered_data data region)).map Prod.fst
      = (filtered_data data region).map (·.period) := by
    rw [pointsOf, List.map_map]
    rfl
  have hp : (pointsOf (filtered_data data region)).Nodup :=
    List.Nodup.of_map Prod.fst (hmapeq ▸ hnodup)
  rw [List.dedup_eq_self.mpr hp, pointsOf, List.length_map] at hfew
  have hlen : ¬ 1 < (filtered_data data region).length := by omega
  simp [forecastBlock, hlen]

/-- C3 witness: a single-observation area yields no forecast. -/
theorem insufficient_data_no_forecast_witness :
    forecastBlock dataC "Solo" = none :=
  insufficient_data_no_forecast dataC "Solo" (by decide)
    (by with_unfolding_all decide)

/-- C4: fitting the forecaster on the perfectly linear series
(2016, 100), (2017, 102), (2018, 104) yields the ordinary-least-squares
line of slope 2, whose predictions at 2019 and 2020 are exactly 106 and
108, and both predicted points appear in the forecast output for that
series. -/
theorem linear_series_roundtrip :
    olsSlope (pointsOf (filtered_data linSeries "X")) = 2 ∧
    predict (pointsOf (filtered_data linSeries "X")) 2019 = 106 ∧
    predict (pointsOf (filtered_data linSeries "X")) 2020 = 108 ∧
    (2019, (106 : ℚ)) ∈ (forecastBlock linSeries "X").getD [] ∧
    (2020, (108 : ℚ)) ∈ (forecastBlock linSeries "X").getD [] := by
  with_unfolding_all decide
